import Mathlib

/-
  Verification of the JSON:API standard query-parameter parsers
  (`http/jsonapi/runtime/standart_params.go`): pagination, sorting and
  filtering parsers and their composer, modelled as pure functions over
  an abstract query-builder trace.
-/

set_option autoImplicit false

namespace Bricks

/-! ### Go string primitives

Shallow embeddings of the `strings` / `strconv` operations the parsers use.
All of them are structurally recursive so they evaluate by `rfl` / `decide`.
-/

/-- Go `strings.HasPrefix`. -/
def strHasPfx (s p : String) : Bool :=
  p.data.isPrefixOf s.data

/-- Go `strings.HasSuffix`. -/
def strHasSfx (s p : String) : Bool :=
  p.data.isSuffixOf s.data

/-- Go `strings.TrimPrefix`: drops `p` from the front of `s` when present. -/
def strTrimPfx (s p : String) : String :=
  if strHasPfx s p then ⟨s.data.drop p.data.length⟩ else s

/-- Go `strings.TrimSuffix`: drops `p` from the end of `s` when present. -/
def strTrimSfx (s p : String) : String :=
  if strHasSfx s p then ⟨s.data.take (s.data.length - p.data.length)⟩ else s

/-- Splitting a character list at commas; the result always has one more
group than there are commas (so `strings.Split("", ",") = [""]`). -/
def splitCommaChars : List Char → List (List Char)
  | [] => [[]]
  | c :: rest =>
    let r := splitCommaChars rest
    if c = ',' then [] :: r
    else
      match r with
      | [] => [[c]]
      | g :: gs => (c :: g) :: gs

/-- Go `strings.Split(s, ",")`. -/
def goSplitComma (s : String) : List String :=
  (splitCommaChars s.data).map fun l => ⟨l⟩

/-- Go `strings.Join(xs, sep)`. -/
def goJoin (sep : String) : List String → String
  | [] => ""
  | [x] => x
  | x :: xs => x ++ sep ++ goJoin sep xs

/-- The `%q` verb of `fmt`: the string surrounded by double quotes (the
parameters quoted here never contain characters `%q` would escape). -/
def goQuote (s : String) : String :=
  "\"" ++ s ++ "\""

/-- Decimal value of a digit list (the caller checks all are digits). -/
def digitsToNat (l : List Char) : Nat :=
  l.foldl (fun acc c => acc * 10 + (c.toNat - '0'.toNat)) 0

/-- Go `strconv.Atoi`, i.e. `ParseInt(s, 10, 0)` on a 64-bit platform:
optional sign, then at least one digit, and the value must fit a signed
64-bit int — otherwise the `ErrRange` failure is returned. -/
def strconvAtoi (s : String) : Except String Int :=
  let sign : Int := if strHasPfx s "-" then -1 else 1
  let digits : String :=
    if strHasPfx s "-" then ⟨s.data.drop 1⟩
    else if strHasPfx s "+" then ⟨s.data.drop 1⟩
    else s
  if digits.data.isEmpty || !(digits.data.all Char.isDigit) then
    Except.error ("strconv.Atoi: parsing " ++ goQuote s ++ ": invalid syntax")
  else
    let v : Int := sign * (digitsToNat digits.data : Int)
    if v < -9223372036854775808 ∨ 9223372036854775807 < v then
      Except.error ("strconv.Atoi: parsing " ++ goQuote s ++ ": value out of range")
    else
      Except.ok v

/-- Whether an `Except` carries a success value. -/
def exceptIsOk {ε α : Type} : Except ε α → Bool
  | Except.ok _ => true
  | Except.error _ => false

/-! ### Query-builder trace model

`orm.Query` is an opaque collaborator; the parsers only ever call
`Order`, `Where`, `Offset` and `Limit` on it.  We model it as the trace of
those calls.  `V` is the type of sanitized filter values (Go's
`interface{}`). -/

/-- An argument handed to `query.Where`: a plain value or `pg.In(values)`. -/
inductive Param (V : Type) where
  | value (v : V)
  | pgIn (vs : List V)
  deriving DecidableEq, Repr

/-- One recorded call on the query builder. -/
inductive QueryOp (V : Type) where
  | order (clause : String)
  | whereOp (cond : String) (p : Param V)
  | offset (n : Int)
  | limit (n : Int)
  deriving DecidableEq, Repr

/-- The opaque query object, as the sequence of builder calls applied to it. -/
structure Query (V : Type) where
  ops : List (QueryOp V)
  deriving DecidableEq, Repr

variable {V : Type}

/-- Builder call `query.Order(clause)`. -/
def Query.Order (q : Query V) (clause : String) : Query V :=
  ⟨q.ops ++ [QueryOp.order clause]⟩

/-- Builder call `query.Where(cond, arg)`. -/
def Query.Where (q : Query V) (cond : String) (p : Param V) : Query V :=
  ⟨q.ops ++ [QueryOp.whereOp cond p]⟩

/-- Builder call `query.Offset(n)`. -/
def Query.Offset (q : Query V) (n : Int) : Query V :=
  ⟨q.ops ++ [QueryOp.offset n]⟩

/-- Builder call `query.Limit(n)`. -/
def Query.Limit (q : Query V) (n : Int) : Query V :=
  ⟨q.ops ++ [QueryOp.limit n]⟩

/-! ### Request, capabilities and configuration -/

/-- A request's decoded query parameters (`url.Values`): parameter name to
its list of values. -/
abbrev Request := List (String × List String)

/-- Go `r.URL.Query().Get(key)`: first value of the key, `""` when absent. -/
def getQuery (r : Request) (key : String) : String :=
  match r with
  | [] => ""
  | (k, vs) :: rest =>
    if k = key then
      match vs with
      | v :: _ => v
      | [] => ""
    else getQuery rest key

/-- Interface method `ColumnMapper.Map`: column name plus a validity flag. -/
abbrev ColumnMapper := String → String × Bool

/-- Association-list lookup standing in for a Go map read
(missing keys give the zero value `""`). -/
def assocFind : List (String × String) → String → Option String
  | [], _ => none
  | (k, v) :: rest, key => if k = key then some v else assocFind rest key

/-- Go map assignment `m[k] = v` on an insertion-ordered association list:
replaces the value of an existing key, appends a new key at the end. -/
def mapInsert {β : Type} : List (String × β) → String → β → List (String × β)
  | [], k, v => [(k, v)]
  | (k', v') :: rest, k, v =>
    if k' = k then (k, v) :: rest else (k', v') :: mapInsert rest k v

/-- Concrete mapper `MapMapper.Map`: lookup in a fixed table; a missing key yields
(`""`, `false`) like a Go map read of a missing key. -/
def MapMapper (mapping : List (String × String)) : ColumnMapper := fun v =>
  match assocFind mapping v with
  | some c => (c, true)
  | none => ("", false)

/-- Interface method `ValueSanitizer.SanitizeValue`: field name and raw value to a typed
value or an error. -/
abbrev ValueSanitizer (V : Type) := String → String → Except String V

/-- The pagination bounds loaded from the environment at startup. -/
structure Config where
  MaxPageSize : Int
  MinPageSize : Int
  deriving DecidableEq, Repr

/-! ### PaginationFromRequest -/

/-- Reduction of an unbounded integer to the signed 64-bit value with the
same low 64 bits (two's-complement). -/
def wrap64 (x : Int) : Int :=
  (x + 9223372036854775808) % 18446744073709551616 - 9223372036854775808

/-- Go `*` on a 64-bit platform int: multiplication wraps. -/
def i64mul (a b : Int) : Int := wrap64 (a * b)

/-- Go `-` on a 64-bit platform int: subtraction wraps. -/
def i64sub (a b : Int) : Int := wrap64 (a - b)

/-- The bounds-violation error message of `PaginationFromRequest`. -/
def pagBoundsMsg (cfg : Config) : String :=
  "invalid pagesize not between min. and max. value, min: " ++
    toString cfg.MinPageSize ++ ", max: " ++ toString cfg.MaxPageSize

/-- Source function `PaginationFromRequest`: reads `page[number]` and `page[size]`; a `none`
first component is Go's `nil` function value, a `none` second component is a
`nil` error. -/
def PaginationFromRequest (cfg : Config) (r : Request) :
    Option (Query V → Query V) × Option String :=
  let pageStr := getQuery r "page[number]"
  let sizeStr := getQuery r "page[size]"
  if pageStr = "" ∨ sizeStr = "" then (some (fun query => query), none)
  else
    match strconvAtoi pageStr with
    | Except.error e => (none, some e)
    | Except.ok pageNr =>
      match strconvAtoi sizeStr with
      | Except.error e => (none, some e)
      | Except.ok pageSize =>
        if pageSize < cfg.MinPageSize ∨ cfg.MaxPageSize < pageSize then
          (none, some (pagBoundsMsg cfg))
        else
          (some (fun query =>
            (if pageNr = 0 then query.Offset 0
             else query.Offset (i64sub (i64mul pageSize pageNr) 1)).Limit pageSize),
           none)

/-! ### SortingFromRequest -/

/-- The body of the loop over the comma-separated `sort` tokens: empty
tokens are skipped, a leading `-` selects `" DESC"` and is stripped, the
remaining name is mapped; unmapped names are collected (in encounter
order), mapped ones produce `column ++ direction` clauses. Returns
(`resultedOrders`, `errSortingWithReason`). -/
def sortingLoop (m : ColumnMapper) : List String → List String × List String
  | [] => ([], [])
  | val :: rest =>
    if val = "" then sortingLoop m rest
    else
      let ord := if strHasPfx val "-" then " DESC" else " ASC"
      let name := strTrimPfx val "-"
      let tail := sortingLoop m rest
      if (m name).2 then (((m name).1 ++ ord) :: tail.1, tail.2)
      else (tail.1, name :: tail.2)

/-- Source function `SortingFromRequest`: parses `sort`; the modifier appends all valid
order clauses and is returned even when some tokens were invalid, in which
case an aggregated error naming them is returned alongside. -/
def SortingFromRequest (r : Request) (m : ColumnMapper) :
    Option (Query V → Query V) × Option String :=
  let sort := getQuery r "sort"
  if sort = "" then (some (fun query => query), none)
  else
    let parsed := sortingLoop m (goSplitComma sort)
    let sortingFilterOption := fun query => parsed.1.foldl Query.Order query
    if parsed.2 = [] then (some sortingFilterOption, none)
    else
      (some sortingFilterOption,
       some ("at least one sorting parameter is not valid: " ++
         goQuote (goJoin "," parsed.2)))

/-! ### FilterFromRequest -/

/-- Source helper `getFilterKey`: strips `filter[` and `]`, maps the field; on mapping
failure returns the raw field name with `false`. -/
def getFilterKey (m : ColumnMapper) (queryName : String) : String × Bool :=
  let field := strTrimSfx (strTrimPfx queryName "filter[") "]"
  if (m field).2 then ((m field).1, true) else (field, false)

/-- The inner sanitization loop of `getFilterValues`: all-or-nothing over
the already comma-split values. -/
def sanitizeVals (san : ValueSanitizer V) (fieldName : String) :
    List String → Option (List V)
  | [] => some []
  | v :: rest =>
    match san fieldName v with
    | Except.error _ => none
    | Except.ok x =>
      match sanitizeVals san fieldName rest with
      | none => none
      | some xs => some (x :: xs)

/-- Concatenation of the comma-splits of each raw query value. -/
def concatSplit : List String → List String
  | [] => []
  | v :: rest => goSplitComma v ++ concatSplit rest

/-- Source helper `getFilterValues`: splits every raw value at commas and sanitizes each
token; any failure discards the whole key (`nil, false` in Go). -/
def getFilterValues (san : ValueSanitizer V) (fieldName : String)
    (queryValues : List String) : Option (List V) :=
  sanitizeVals san fieldName (concatSplit queryValues)

/-- One iteration of the loop of `FilterFromRequest` over the request's
parameters: the accumulator carries the parsed `filter` map (as an
insertion-ordered association list) and `invalidFilter`. -/
def filterStep (m : ColumnMapper) (san : ValueSanitizer V)
    (acc : List (String × List V) × List String) (p : String × List String) :
    List (String × List V) × List String :=
  if strHasPfx p.1 "filter[" && strHasSfx p.1 "]" then
    let kv := getFilterKey m p.1
    if kv.2 then
      match getFilterValues san kv.1 p.2 with
      | some vs => (mapInsert acc.1 kv.1 vs, acc.2)
      | none => (acc.1, acc.2 ++ [kv.1])
    else (acc.1, acc.2 ++ [kv.1])
  else acc

/-- The parameter loop of `FilterFromRequest`, iterated with its accumulator. -/
def filterLoopAux (m : ColumnMapper) (san : ValueSanitizer V)
    (acc : List (String × List V) × List String) :
    Request → List (String × List V) × List String
  | [] => acc
  | p :: rest => filterLoopAux m san (filterStep m san acc p) rest

/-- The parameter loop of `FilterFromRequest` over the whole request. -/
def filterLoop (r : Request) (m : ColumnMapper) (san : ValueSanitizer V) :
    List (String × List V) × List String :=
  filterLoopAux m san ([], []) r

/-- The closure returned by `FilterFromRequest`: per parsed key, no
predicate for zero values, an equality predicate for exactly one, a
membership predicate over `pg.In` otherwise. -/
def applyFilters : List (String × List V) → Query V → Query V
  | [], q => q
  | p :: rest, q =>
    applyFilters rest
      (match p.2 with
       | [] => q
       | [v] => q.Where (p.1 ++ " = ?") (Param.value v)
       | vs => q.Where (p.1 ++ " IN (?)") (Param.pgIn vs))

/-- Source function `FilterFromRequest`: scans `filter[...]` parameters, maps and sanitizes
them; always returns a modifier applying all fully-valid keys, plus an
aggregated error when any key was invalid. -/
def FilterFromRequest (r : Request) (m : ColumnMapper) (san : ValueSanitizer V) :
    Option (Query V → Query V) × Option String :=
  let parsed := filterLoop r m san
  let filterQueryOption := fun query => applyFilters parsed.1 query
  if parsed.2 = [] then (some filterQueryOption, none)
  else
    (some filterQueryOption,
     some ("at least one filter parameter is not valid: " ++
       goQuote (goJoin "," parsed.2)))

/-! ### FilterPagingSortingFromRequest -/

/-- Calling a possibly-`nil` Go function value: `none` is the panic of a
`nil` call. -/
def callQO (o : Option (Query V → Query V)) (q : Query V) : Option (Query V) :=
  match o with
  | none => none
  | some f => some (f q)

/-- Source function `FilterPagingSortingFromRequest`: runs the sorting, pagination and
filtering parsers in that order with the source's short-circuit guards
(`err != nil && option != nil`), and composes one closure applying
sorting, then filtering, then pagination. -/
def FilterPagingSortingFromRequest (cfg : Config) (r : Request)
    (m : ColumnMapper) (san : ValueSanitizer V) :
    Option (Query V → Option (Query V)) × Option String :=
  let so := SortingFromRequest (V := V) r m
  if so.2.isSome && so.1.isSome then (none, so.2)
  else
    let po := PaginationFromRequest (V := V) cfg r
    if po.2.isSome && po.1.isSome then (none, po.2)
    else
      let fo := FilterFromRequest r m san
      if fo.2.isSome && fo.1.isSome then (none, fo.2)
      else
        (some (fun query =>
          (callQO so.1 query).bind fun q1 =>
            (callQO fo.1 q1).bind fun q2 => callQO po.1 q2),
         none)

/-! ### Spec-side characterizations

These definitions follow the wording of the specification (per-token /
per-parameter descriptions); the lemmas below relate them to the
source-translated loops. -/

/-- Spec, sorting parser: per non-empty token, a leading `-` is stripped
and selects descending order; a token whose stripped name maps yields the
clause `column ++ direction`. -/
def specSortClauses (m : ColumnMapper) (tokens : List String) : List String :=
  tokens.filterMap fun t =>
    if t = "" then none
    else
      let dir := if strHasPfx t "-" then " DESC" else " ASC"
      let name := strTrimPfx t "-"
      if (m name).2 then some ((m name).1 ++ dir) else none

/-- Spec, sorting parser: the stripped names the mapper rejects, in
encounter order. -/
def specInvalidSortTokens (m : ColumnMapper) (tokens : List String) : List String :=
  tokens.filterMap fun t =>
    if t = "" then none
    else
      let name := strTrimPfx t "-"
      if (m name).2 then none else some name

/-- Spec, filtering parser: the predicate recorded for one parsed key —
none for zero values, equality for exactly one, membership otherwise. -/
def specFilterOps : List (String × List V) → List (QueryOp V) := fun fs =>
  fs.filterMap fun p =>
    match p.2 with
    | [] => none
    | [v] => some (QueryOp.whereOp (p.1 ++ " = ?") (Param.value v))
    | vs => some (QueryOp.whereOp (p.1 ++ " IN (?)") (Param.pgIn vs))

/-- Amended spec, filtering parser: per `filter[...]` parameter, an
unmapped field contributes its raw field name to the invalid list, while a
mapped field with a sanitization failure contributes its mapped column
name. -/
def specInvalidFilters (m : ColumnMapper) (san : ValueSanitizer V)
    (r : Request) : List String :=
  r.filterMap fun p =>
    if strHasPfx p.1 "filter[" && strHasSfx p.1 "]" then
      let field := strTrimSfx (strTrimPfx p.1 "filter[") "]"
      if (m field).2 then
        if (getFilterValues san (m field).1 p.2).isNone then some ((m field).1)
        else none
      else some field
    else none

/-- Spec, pagination (§3 data model): an applied pagination modifier either
leaves the query untouched or records an offset ≥ 0 followed by a
limit > 0. -/
def paginationApplyOk (f : Query V → Query V) : Prop :=
  ∀ q, f q = q ∨ ∃ o l : Int, 0 ≤ o ∧ 0 < l ∧
    (f q).ops = q.ops ++ [QueryOp.offset o, QueryOp.limit l]

/-- Property `paginationApplyOk` lifted over a possibly-`nil` returned modifier. -/
def paginationOptOk (o : Option (Query V → Query V)) : Prop :=
  ∀ f, o = some f → paginationApplyOk f

/-! ### Concrete fixtures -/

/-- The default configuration (`MIN_PAGE_SIZE` 1, `MAX_PAGE_SIZE` 100). -/
def dcfg : Config := { MaxPageSize := 100, MinPageSize := 1 }

/-- Example column mapping used throughout the spec's examples. -/
def exMapper : ColumnMapper :=
  MapMapper [("name", "col_name"), ("age", "col_age"), ("color", "col_color")]

/-- The identity sanitizer: accepts every value unchanged. -/
def idSanitizer : ValueSanitizer String := fun _ v => Except.ok v

/-- A mapper whose column name differs textually from the field name. -/
def farbeMapper : ColumnMapper := MapMapper [("color", "farbe")]

/-- A sanitizer rejecting exactly the raw value `"bad"`. -/
def rejectBad : ValueSanitizer String := fun _ v =>
  if v = "bad" then Except.error "invalid value" else Except.ok v

/-! ### Helper lemmas -/

theorem foldl_Order_ops (orders : List String) (q : Query V) :
    (orders.foldl Query.Order q).ops = q.ops ++ orders.map QueryOp.order := by
  induction orders generalizing q with
  | nil => simp
  | cons o rest ih => simp [ih, Query.Order]

theorem sortingLoop_eq (m : ColumnMapper) (ts : List String) :
    sortingLoop m ts = (specSortClauses m ts, specInvalidSortTokens m ts) := by
  induction ts with
  | nil => rfl
  | cons t rest ih =>
    by_cases ht : t = ""
    · simp [sortingLoop, specSortClauses, specInvalidSortTokens, ht, ih]
    · by_cases hm : (m (strTrimPfx t "-")).2
      · simp [sortingLoop, specSortClauses, specInvalidSortTokens, ht, hm, ih]
      · simp [sortingLoop, specSortClauses, specInvalidSortTokens, ht, hm, ih]

theorem applyFilters_ops (fs : List (String × List V)) (q : Query V) :
    (applyFilters fs q).ops = q.ops ++ specFilterOps fs := by
  induction fs generalizing q with
  | nil => simp [applyFilters, specFilterOps]
  | cons p rest ih =>
    rcases p with ⟨name, vs⟩
    match vs with
    | [] => simp [applyFilters, specFilterOps, ih]
    | [v] => simp [applyFilters, specFilterOps, ih, Query.Where]
    | v :: w :: tl => simp [applyFilters, specFilterOps, ih, Query.Where]

theorem filterLoopAux_snd (m : ColumnMapper) (san : ValueSanitizer V)
    (r : Request) :
    ∀ acc, (filterLoopAux m san acc r).2 = acc.2 ++ specInvalidFilters m san r := by
  induction r with
  | nil => intro acc; simp [filterLoopAux, specInvalidFilters]
  | cons p rest ih =>
    intro acc
    by_cases hp : strHasPfx p.1 "filter[" = true ∧ strHasSfx p.1 "]" = true
    · by_cases hm : (m (strTrimSfx (strTrimPfx p.1 "filter[") "]")).2
      · cases hv : getFilterValues san (m (strTrimSfx (strTrimPfx p.1 "filter[") "]")).1 p.2 with
        | none =>
          simp [filterLoopAux, filterStep, specInvalidFilters, getFilterKey,
            hp, hm, hv, ih]
        | some vs =>
          simp [filterLoopAux, filterStep, specInvalidFilters, getFilterKey,
            hp, hm, hv, ih]
      · simp [filterLoopAux, filterStep, specInvalidFilters, getFilterKey,
          hp, hm, ih]
    · simp [filterLoopAux, filterStep, specInvalidFilters, hp, ih]

theorem filterLoop_snd (r : Request) (m : ColumnMapper) (san : ValueSanitizer V) :
    (filterLoop r m san).2 = specInvalidFilters m san r := by
  simpa using filterLoopAux_snd m san r ([], [])

theorem sorting_fst_isSome (r : Request) (m : ColumnMapper) :
    ((SortingFromRequest (V := V) r m).1).isSome = true := by
  by_cases h : getQuery r "sort" = ""
  · simp [SortingFromRequest, h]
  · by_cases h2 : (sortingLoop m (goSplitComma (getQuery r "sort"))).2 = []
    · simp [SortingFromRequest, h, h2]
    · simp [SortingFromRequest, h, h2]

theorem filter_fst_isSome (r : Request) (m : ColumnMapper) (san : ValueSanitizer V) :
    ((FilterFromRequest r m san).1).isSome = true := by
  by_cases h : (filterLoop r m san).2 = []
  · simp [FilterFromRequest, h]
  · simp [FilterFromRequest, h]

theorem pagination_fst_isSome_of_no_err (cfg : Config) (r : Request)
    (h : (PaginationFromRequest (V := V) cfg r).2 = none) :
    ((PaginationFromRequest (V := V) cfg r).1).isSome = true := by
  by_cases h0 : getQuery r "page[number]" = "" ∨ getQuery r "page[size]" = ""
  · simp [PaginationFromRequest, h0]
  · cases hn : strconvAtoi (getQuery r "page[number]") with
    | error e => simp [PaginationFromRequest, h0, hn] at h
    | ok pageNr =>
      cases hs : strconvAtoi (getQuery r "page[size]") with
      | error e => simp [PaginationFromRequest, h0, hn, hs] at h
      | ok pageSize =>
        by_cases hb : pageSize < cfg.MinPageSize ∨ cfg.MaxPageSize < pageSize
        · simp [PaginationFromRequest, h0, hn, hs, hb] at h
        · simp [PaginationFromRequest, h0, hn, hs, hb]

/-- Appending strings appends their character data. -/
theorem strData_append (s t : String) : (s ++ t).data = s.data ++ t.data := rfl

/-! ### Requests used as fixtures -/

/-- Request `page[number]=2&page[size]=10`. -/
def reqPagOk : Request := [("page[number]", ["2"]), ("page[size]", ["10"])]

/-- Request `page[number]=-1&page[size]=10`. -/
def reqPagNeg : Request := [("page[number]", ["-1"]), ("page[size]", ["10"])]

/-- Request `page[number]=2&page[size]=abc`. -/
def reqPagBad : Request := [("page[number]", ["2"]), ("page[size]", ["abc"])]

/-- Request `page[number]=2&page[size]=1000`. -/
def reqPagOut : Request := [("page[number]", ["2"]), ("page[size]", ["1000"])]

/-- Request `page[number]=4611686018427387904&page[size]=4`: both parse as
64-bit ints, the size is within the default bounds, and `4 * 2^62`
overflows. -/
def reqPagWrap : Request :=
  [("page[number]", ["4611686018427387904"]), ("page[size]", ["4"])]

/-- Request `page[number]=2&page[size]=9223372036854775808`: the size
numeral exceeds the 64-bit int range, so `Atoi` fails with `ErrRange`. -/
def reqPagRange : Request :=
  [("page[number]", ["2"]), ("page[size]", ["9223372036854775808"])]

/-- Request `sort=-name,age`. -/
def reqSortOk : Request := [("sort", ["-name,age"])]

/-- Request `sort=-name,bogus`. -/
def reqSortBad : Request := [("sort", ["-name,bogus"])]

/-- Request `filter[color]=red&filter[bad]=x`. -/
def reqFilterBoth : Request := [("filter[color]", ["red"]), ("filter[bad]", ["x"])]

/-- Request `filter[color]=red,bad`. -/
def reqFilterRB : Request := [("filter[color]", ["red,bad"])]

/-- Request with valid sort and filter but malformed `page[size]`. -/
def reqC1 : Request :=
  [("sort", ["name"]), ("page[number]", ["2"]), ("page[size]", ["xyz"]),
   ("filter[color]", ["red"])]

/-- Request with no sort or filter parameters and malformed `page[size]`. -/
def reqC2 : Request := [("page[number]", ["1"]), ("page[size]", ["abc"])]

/-- Request on which all three parsers succeed. -/
def reqAll : Request :=
  [("sort", ["-name"]), ("page[number]", ["2"]), ("page[size]", ["10"]),
   ("filter[color]", ["red,blue"])]

/-! ### Claim theorems -/

/-- C1: the spec's short-circuit claim is the intended contract, but the
code's guard `err != nil && paginationOption != nil` can never fire for
pagination (`PaginationFromRequest` returns a `nil` option exactly when it
errors).  At a request whose sorting and filtering are valid and whose
`page[size]` is malformed, the composer returns a `nil` error instead of
the pagination error, and the composed modifier invokes a `nil`
`QueryOption` (a run-time panic, modelled as `none`) when applied. -/
theorem c1_pagination_error_not_short_circuited :
    ((PaginationFromRequest (V := String) dcfg reqC1).2).isSome = true ∧
    (FilterPagingSortingFromRequest dcfg reqC1 exMapper idSanitizer).2 = none ∧
    Option.map (fun f => f ⟨[]⟩)
      (FilterPagingSortingFromRequest dcfg reqC1 exMapper idSanitizer).1 =
      some none :=
  ⟨rfl, rfl, rfl⟩

/-- C2: for a request whose sorting and filtering succeed while pagination
parsing fails (`page[size]` not an integer), `FilterPagingSortingFromRequest`
returns a `nil` error together with a composed modifier, and applying that
modifier to any query invokes a `nil` `QueryOption` (modelled as `none`):
the pagination error is silently discarded. -/
theorem c2_pagination_error_swallowed :
    (FilterPagingSortingFromRequest dcfg reqC2 exMapper idSanitizer).2 = none ∧
    ((PaginationFromRequest (V := String) dcfg reqC2).2).isSome = true ∧
    ∀ q : Query String,
      Option.map (fun f => f q)
        (FilterPagingSortingFromRequest dcfg reqC2 exMapper idSanitizer).1 =
        some none :=
  ⟨rfl, rfl, fun _ => rfl⟩

/-- A value already in the signed 64-bit range is its own wrap. -/
theorem wrap64_eq_self {x : Int} (h1 : -9223372036854775808 ≤ x)
    (h2 : x < 9223372036854775808) : wrap64 x = x := by
  unfold wrap64
  omega

/-- The source's `(pageSize * pageNr) - 1` over wrapping 64-bit ints equals
the single wrap of the exact value `pageSize * pageNr - 1`. -/
theorem i64sub_i64mul_one (a b : Int) :
    i64sub (i64mul a b) 1 = wrap64 (a * b - 1) := by
  unfold i64sub i64mul wrap64
  omega

/-- C3, counterexample: at `page[number]=2^62`, `page[size]=4` (both valid
64-bit ints, size within the default bounds) the program's 64-bit
arithmetic wraps `4 * 2^62 - 1` to `-1`, so the recorded offset is not the
claimed mathematical `size * number - 1`. -/
theorem c3_counterexample :
    (PaginationFromRequest (V := String) dcfg reqPagWrap).2 = none ∧
    Option.map (fun f => f ⟨[]⟩)
      (PaginationFromRequest (V := String) dcfg reqPagWrap).1 =
      some ⟨[QueryOp.offset (-1), QueryOp.limit 4]⟩ ∧
    (-1 : Int) ≠ 4 * 4611686018427387904 - 1 :=
  ⟨rfl, rfl, by decide⟩

/-- C3, amended: when both parameters parse as (64-bit) integers `n` and
`s` with `MinPageSize ≤ s ≤ MaxPageSize`, the modifier records limit `s`
and offset `0` for `n = 0`, and otherwise the 64-bit two's-complement
value of `s * n - 1` — which equals `s * n - 1` itself whenever that value
fits the signed 64-bit range. -/
theorem c3_amended_offset_formula {V : Type} (cfg : Config) (r : Request)
    (n s : Int)
    (hp : getQuery r "page[number]" ≠ "") (hs : getQuery r "page[size]" ≠ "")
    (hn : strconvAtoi (getQuery r "page[number]") = Except.ok n)
    (hsz : strconvAtoi (getQuery r "page[size]") = Except.ok s)
    (hmin : cfg.MinPageSize ≤ s) (hmax : s ≤ cfg.MaxPageSize) :
    ∃ f, PaginationFromRequest (V := V) cfg r = (some f, none) ∧
      (∀ q, (f q).ops = q.ops ++
        [QueryOp.offset (if n = 0 then 0 else wrap64 (s * n - 1)),
         QueryOp.limit s]) ∧
      (-9223372036854775808 ≤ s * n - 1 → s * n - 1 < 9223372036854775808 →
        wrap64 (s * n - 1) = s * n - 1) := by
  have hb : ¬ (s < cfg.MinPageSize ∨ cfg.MaxPageSize < s) := by
    push_neg
    exact ⟨hmin, hmax⟩
  refine ⟨fun query =>
    (if n = 0 then query.Offset 0
     else query.Offset (i64sub (i64mul s n) 1)).Limit s, ?_, ?_,
    fun h1 h2 => wrap64_eq_self h1 h2⟩
  · simp [PaginationFromRequest, hp, hs, hn, hsz, hb]
  · intro q
    by_cases h0 : n = 0 <;>
      simp [h0, Query.Offset, Query.Limit, i64sub_i64mul_one]

/-- Witness for the amended C3: `page[number]=2`, `page[size]=10` yields
offset 19 and limit 10 under the default bounds. -/
theorem c3_amended_offset_formula_witness :
    ∃ f, PaginationFromRequest (V := String) dcfg reqPagOk = (some f, none) ∧
      (f ⟨[]⟩).ops = [QueryOp.offset 19, QueryOp.limit 10] := by
  obtain ⟨f, hf, happ, _⟩ := c3_amended_offset_formula (V := String) dcfg reqPagOk
    2 10 (by decide) (by decide) (by rfl) (by rfl) (by decide) (by decide)
  exact ⟨f, hf, (happ ⟨[]⟩).trans (by decide)⟩

/-- C4: `PaginationFromRequest` returns a no-op modifier without error when
either parameter is absent; a parse error when both are present but one is
not an integer; and, when both parse but the size breaks the bounds, the
bounds error naming the configured minimum and maximum. -/
theorem c4_pagination_cases {V : Type} (cfg : Config) (r : Request) :
    ((getQuery r "page[number]" = "" ∨ getQuery r "page[size]" = "") →
      ∃ f, PaginationFromRequest (V := V) cfg r = (some f, none) ∧ ∀ q, f q = q) ∧
    (getQuery r "page[number]" ≠ "" → getQuery r "page[size]" ≠ "" →
      (exceptIsOk (strconvAtoi (getQuery r "page[number]")) = false ∨
       exceptIsOk (strconvAtoi (getQuery r "page[size]")) = false) →
      (PaginationFromRequest (V := V) cfg r).1 = none ∧
      (PaginationFromRequest (V := V) cfg r).2 ≠ none) ∧
    (∀ n s : Int, getQuery r "page[number]" ≠ "" → getQuery r "page[size]" ≠ "" →
      strconvAtoi (getQuery r "page[number]") = Except.ok n →
      strconvAtoi (getQuery r "page[size]") = Except.ok s →
      (s < cfg.MinPageSize ∨ cfg.MaxPageSize < s) →
      PaginationFromRequest (V := V) cfg r = (none, some (pagBoundsMsg cfg)) ∧
      (toString cfg.MinPageSize).data <:+: (pagBoundsMsg cfg).data ∧
      (toString cfg.MaxPageSize).data <:+: (pagBoundsMsg cfg).data) := by
  refine ⟨?_, ?_, ?_⟩
  · intro h
    refine ⟨fun query => query, ?_, fun q => rfl⟩
    rcases h with h | h <;> simp [PaginationFromRequest, h]
  · intro hp hs hbad
    cases hn : strconvAtoi (getQuery r "page[number]") with
    | error e => simp [PaginationFromRequest, hp, hs, hn]
    | ok n =>
      cases hsz : strconvAtoi (getQuery r "page[size]") with
      | error e => simp [PaginationFromRequest, hp, hs, hn, hsz]
      | ok s => simp [exceptIsOk, hn, hsz] at hbad
  · intro n s hp hs hn hsz hb
    refine ⟨by simp [PaginationFromRequest, hp, hs, hn, hsz, hb], ?_, ?_⟩
    · exact ⟨("invalid pagesize not between min. and max. value, min: ").data,
        (", max: " ++ toString cfg.MaxPageSize).data,
        by simp [pagBoundsMsg, strData_append]⟩
    · exact ⟨("invalid pagesize not between min. and max. value, min: " ++
        toString cfg.MinPageSize ++ ", max: ").data, [],
        by simp [pagBoundsMsg, strData_append]⟩

/-- Witness for C4: the absent, malformed-integer (both a syntax failure
and an `ErrRange` failure) and out-of-bounds cases at concrete requests
under the default bounds. -/
theorem c4_pagination_cases_witness :
    (∃ f, PaginationFromRequest (V := String) dcfg [] = (some f, none) ∧
      ∀ q, f q = q) ∧
    ((PaginationFromRequest (V := String) dcfg reqPagBad).1 = none ∧
     (PaginationFromRequest (V := String) dcfg reqPagBad).2 ≠ none) ∧
    ((PaginationFromRequest (V := String) dcfg reqPagRange).1 = none ∧
     (PaginationFromRequest (V := String) dcfg reqPagRange).2 ≠ none) ∧
    (PaginationFromRequest (V := String) dcfg reqPagOut =
      (none, some (pagBoundsMsg dcfg)) ∧
     (toString dcfg.MinPageSize).data <:+: (pagBoundsMsg dcfg).data ∧
     (toString dcfg.MaxPageSize).data <:+: (pagBoundsMsg dcfg).data) :=
  ⟨(c4_pagination_cases (V := String) dcfg []).1 (Or.inl rfl),
   (c4_pagination_cases (V := String) dcfg reqPagBad).2.1
     (by decide) (by decide) (Or.inr rfl),
   (c4_pagination_cases (V := String) dcfg reqPagRange).2.1
     (by decide) (by decide) (Or.inr rfl),
   (c4_pagination_cases (V := String) dcfg reqPagOut).2.2 2 1000
     (by decide) (by decide) rfl rfl (Or.inr (by decide))⟩

/-- C5, counterexample: with the default bounds, `page[number]=-1` and
`page[size]=10` return a modifier without error, yet applying it records
offset `-11` — neither a no-op nor an offset ≥ 0, so the claimed invariant
fails for negative page numbers. -/
theorem c5_counterexample :
    (PaginationFromRequest (V := String) dcfg reqPagNeg).2 = none ∧
    ¬ paginationOptOk (PaginationFromRequest (V := String) dcfg reqPagNeg).1 := by
  refine ⟨rfl, ?_⟩
  intro h
  have hf : (PaginationFromRequest (V := String) dcfg reqPagNeg).1 =
      some (fun q : Query String => (q.Offset (-11)).Limit 10) := rfl
  have hpa := h _ hf
  rcases hpa ⟨[]⟩ with h1 | ⟨o, l, ho, hl, heq⟩
  · exact absurd h1 (by decide)
  · have heq2 : [QueryOp.offset (-11 : Int), QueryOp.limit (10 : Int)] =
        [QueryOp.offset o, QueryOp.limit l] := heq
    have ho2 : (-11 : Int) = o := by
      injection heq2 with h3 h4
      injection h3
    omega

/-- C5, amended: provided the configured `MinPageSize` is at least 1, the
request's `page[number]` (when it parses) is non-negative, and
`size * number` stays below the signed 64-bit maximum (no wrap-around), an
error-free `PaginationFromRequest` modifier either leaves the query
untouched or records an offset ≥ 0 followed by a limit > 0. -/
theorem c5_amended_nonneg {V : Type} (cfg : Config) (r : Request)
    (hmin : 1 ≤ cfg.MinPageSize)
    (hnum : ∀ n : Int, strconvAtoi (getQuery r "page[number]") = Except.ok n →
      0 ≤ n)
    (hnw : ∀ n s : Int, strconvAtoi (getQuery r "page[number]") = Except.ok n →
      strconvAtoi (getQuery r "page[size]") = Except.ok s →
      s * n < 9223372036854775808) :
    paginationOptOk (PaginationFromRequest (V := V) cfg r).1 := by
  intro f hf
  by_cases h0 : getQuery r "page[number]" = "" ∨ getQuery r "page[size]" = ""
  · have hid : (PaginationFromRequest (V := V) cfg r).1 =
        some (fun query => query) := by
      simp [PaginationFromRequest, h0]
    have heq := Option.some.inj (hid.symm.trans hf)
    subst heq
    intro q
    exact Or.inl rfl
  · cases hn : strconvAtoi (getQuery r "page[number]") with
    | error e =>
      have : (PaginationFromRequest (V := V) cfg r).1 = none := by
        simp [PaginationFromRequest, h0, hn]
      rw [this] at hf
      exact Option.noConfusion hf
    | ok n =>
      cases hsz : strconvAtoi (getQuery r "page[size]") with
      | error e =>
        have : (PaginationFromRequest (V := V) cfg r).1 = none := by
          simp [PaginationFromRequest, h0, hn, hsz]
        rw [this] at hf
        exact Option.noConfusion hf
      | ok s =>
        by_cases hb : s < cfg.MinPageSize ∨ cfg.MaxPageSize < s
        · have : (PaginationFromRequest (V := V) cfg r).1 = none := by
            simp [PaginationFromRequest, h0, hn, hsz, hb]
          rw [this] at hf
          exact Option.noConfusion hf
        · have hcl : (PaginationFromRequest (V := V) cfg r).1 = some (fun query =>
            (if n = 0 then query.Offset 0
             else query.Offset (i64sub (i64mul s n) 1)).Limit s) := by
            simp [PaginationFromRequest, h0, hn, hsz, hb]
          have heq := Option.some.inj (hcl.symm.trans hf)
          subst heq
          push_neg at hb
          have hs1 : 1 ≤ s := le_trans hmin hb.1
          have hn0 : 0 ≤ n := hnum n hn
          have hub : s * n < 9223372036854775808 := hnw n s hn hsz
          intro q
          refine Or.inr ⟨if n = 0 then 0 else i64sub (i64mul s n) 1, s,
            ?_, by omega, ?_⟩
          · by_cases h00 : n = 0
            · simp [h00]
            · simp only [h00, if_false]
              have h1n : 1 ≤ n := by omega
              have hsn : 1 ≤ s * n := by nlinarith
              rw [i64sub_i64mul_one, wrap64_eq_self (by omega) (by omega)]
              omega
          · by_cases h00 : n = 0 <;> simp [h00, Query.Offset, Query.Limit]

/-- Witness for the amended C5 at `page[number]=2`, `page[size]=10` under
the default bounds. -/
theorem c5_amended_nonneg_witness :
    paginationOptOk (PaginationFromRequest (V := String) dcfg reqPagOk).1 :=
  c5_amended_nonneg (V := String) dcfg reqPagOk (by decide)
    (fun n h => by
      have h2 : strconvAtoi (getQuery reqPagOk "page[number]") = Except.ok 2 := rfl
      rw [h2] at h
      injection h with h3
      omega)
    (fun n s h h' => by
      have h2 : strconvAtoi (getQuery reqPagOk "page[number]") = Except.ok 2 := rfl
      have h3 : strconvAtoi (getQuery reqPagOk "page[size]") = Except.ok 10 := rfl
      rw [h2] at h
      rw [h3] at h'
      injection h with h4
      injection h' with h5
      subst h4
      subst h5
      omega)

/-- C6: when every non-empty sort token's stripped name maps, the parser
returns no error and its modifier appends, in encounter order, one order
clause per non-empty token: the mapped column with `DESC` for a leading
`-` (stripped before mapping) and `ASC` otherwise. -/
theorem c6_sorting_all_valid {V : Type} (r : Request) (m : ColumnMapper)
    (hall : ∀ t ∈ goSplitComma (getQuery r "sort"), t ≠ "" →
      (m (strTrimPfx t "-")).2 = true) :
    ∃ f, SortingFromRequest (V := V) r m = (some f, none) ∧
      ∀ q, (f q).ops = q.ops ++
        (specSortClauses m (goSplitComma (getQuery r "sort"))).map QueryOp.order := by
  by_cases h : getQuery r "sort" = ""
  · refine ⟨fun query => query, by simp [SortingFromRequest, h], ?_⟩
    intro q
    have he : specSortClauses m (goSplitComma (getQuery r "sort")) = [] := by
      rw [h]; rfl
    simp [he]
  · have hinv : specInvalidSortTokens m (goSplitComma (getQuery r "sort")) = [] := by
      rw [specInvalidSortTokens, List.filterMap_eq_nil_iff]
      intro t ht
      by_cases ht0 : t = ""
      · simp [ht0]
      · simp [ht0, hall t ht ht0]
    have hloop := sortingLoop_eq m (goSplitComma (getQuery r "sort"))
    refine ⟨fun query =>
      (sortingLoop m (goSplitComma (getQuery r "sort"))).1.foldl Query.Order query,
      ?_, ?_⟩
    · simp [SortingFromRequest, h, hloop, hinv]
    · intro q
      simp only [hloop]
      exact foldl_Order_ops _ q

/-- Witness for C6: `sort=-name,age` with `name→col_name`, `age→col_age`
appends `col_name DESC` then `col_age ASC`. -/
theorem c6_sorting_all_valid_witness :
    ∃ f, SortingFromRequest (V := String) reqSortOk exMapper = (some f, none) ∧
      (f ⟨[]⟩).ops =
        [QueryOp.order "col_name DESC", QueryOp.order "col_age ASC"] := by
  obtain ⟨f, hf, happ⟩ :=
    c6_sorting_all_valid (V := String) reqSortOk exMapper (by decide)
  exact ⟨f, hf, (happ ⟨[]⟩).trans (by decide)⟩

/-- C7: when some non-empty sort token's stripped name fails to map, the
parser returns the aggregated error naming every such name comma-joined,
and its modifier still appends the order clauses of all valid tokens. -/
theorem c7_sorting_invalid_aggregated {V : Type} (r : Request) (m : ColumnMapper)
    (hbad : specInvalidSortTokens m (goSplitComma (getQuery r "sort")) ≠ []) :
    ∃ f, SortingFromRequest (V := V) r m =
      (some f, some ("at least one sorting parameter is not valid: " ++
        goQuote (goJoin ","
          (specInvalidSortTokens m (goSplitComma (getQuery r "sort")))))) ∧
      ∀ q, (f q).ops = q.ops ++
        (specSortClauses m (goSplitComma (getQuery r "sort"))).map QueryOp.order := by
  have h : getQuery r "sort" ≠ "" := by
    intro h0
    apply hbad
    rw [h0]; rfl
  have hloop := sortingLoop_eq m (goSplitComma (getQuery r "sort"))
  refine ⟨fun query =>
    (sortingLoop m (goSplitComma (getQuery r "sort"))).1.foldl Query.Order query,
    ?_, ?_⟩
  · simp [SortingFromRequest, h, hloop, hbad]
  · intro q
    simp only [hloop]
    exact foldl_Order_ops _ q

/-- Witness for C7: `sort=-name,bogus` with `bogus` unmapped errors naming
`bogus` while the modifier still appends `col_name DESC`. -/
theorem c7_sorting_invalid_aggregated_witness :
    ∃ f, SortingFromRequest (V := String) reqSortBad exMapper =
      (some f, some "at least one sorting parameter is not valid: \"bogus\"") ∧
      (f ⟨[]⟩).ops = [QueryOp.order "col_name DESC"] := by
  obtain ⟨f, hf, happ⟩ :=
    c7_sorting_invalid_aggregated (V := String) reqSortBad exMapper (by decide)
  exact ⟨f, hf.trans (by rfl), (happ ⟨[]⟩).trans (by decide)⟩

/-- C8: the modifier returned by `FilterFromRequest` records, for each
surviving filter key, an equality predicate for exactly one value, one
membership (`IN`) predicate over all values for more than one, and nothing
for zero values. -/
theorem c8_filter_cardinality {V : Type} (r : Request) (m : ColumnMapper)
    (san : ValueSanitizer V) :
    ∃ f, (FilterFromRequest r m san).1 = some f ∧
      ∀ q, (f q).ops = q.ops ++ specFilterOps (filterLoop r m san).1 := by
  by_cases h : (filterLoop r m san).2 = []
  · exact ⟨fun query => applyFilters (filterLoop r m san).1 query,
      by simp [FilterFromRequest, h], fun q => applyFilters_ops _ q⟩
  · exact ⟨fun query => applyFilters (filterLoop r m san).1 query,
      by simp [FilterFromRequest, h], fun q => applyFilters_ops _ q⟩

/-- C9, counterexample: with mapping `color→farbe` and a sanitizer
rejecting the token `bad`, the request `filter[color]=red,bad` discards
the key but reports the *mapped column name* `farbe` — the invalid field's
name `color` appears nowhere in the error, contradicting the claim that
the aggregated error names every invalid field. -/
theorem c9_counterexample :
    (FilterFromRequest (V := String) reqFilterRB farbeMapper rejectBad).2 =
      some "at least one filter parameter is not valid: \"farbe\"" ∧
    ¬ ("color".data <:+:
        ("at least one filter parameter is not valid: \"farbe\"").data) ∧
    Option.map (fun f => f ⟨[]⟩)
      (FilterFromRequest (V := String) reqFilterRB farbeMapper rejectBad).1 =
      some ⟨[]⟩ :=
  ⟨rfl, by decide, rfl⟩

/-- C9, amended: a key any of whose tokens fails sanitization is discarded
entirely and contributes its *mapped column name* to the invalid list
(an unmapped field contributes its raw field name); a non-empty invalid
list yields the aggregated error naming every entry comma-joined, while
the modifier still applies all fully-valid keys. -/
theorem c9_amended_invalid_names {V : Type} (r : Request) (m : ColumnMapper)
    (san : ValueSanitizer V)
    (hbad : specInvalidFilters m san r ≠ []) :
    ∃ f, FilterFromRequest r m san =
      (some f, some ("at least one filter parameter is not valid: " ++
        goQuote (goJoin "," (specInvalidFilters m san r)))) ∧
      ∀ q, (f q).ops = q.ops ++ specFilterOps (filterLoop r m san).1 := by
  have h2 := filterLoop_snd r m san
  have h : (filterLoop r m san).2 ≠ [] := by rw [h2]; exact hbad
  exact ⟨fun query => applyFilters (filterLoop r m san).1 query,
    by simp [FilterFromRequest, h, h2, hbad], fun q => applyFilters_ops _ q⟩

/-- Witness for the amended C9: `filter[color]=red&filter[bad]=x` with
`bad` unmapped errors naming `bad` while `col_color = red` is still
applied. -/
theorem c9_amended_invalid_names_witness :
    ∃ f, FilterFromRequest (V := String) reqFilterBoth exMapper idSanitizer =
      (some f, some "at least one filter parameter is not valid: \"bad\"") ∧
      (f ⟨[]⟩).ops = [QueryOp.whereOp "col_color = ?" (Param.value "red")] := by
  obtain ⟨f, hf, happ⟩ := c9_amended_invalid_names (V := String) reqFilterBoth
    exMapper idSanitizer (by decide)
  exact ⟨f, hf.trans (by rfl), (happ ⟨[]⟩).trans (by decide)⟩

/-- C10: when all three sub-parsers succeed, the composed modifier applies
the sorting modifier first, then the filtering modifier, then the
pagination modifier. -/
theorem c10_compose_order {V : Type} (cfg : Config) (r : Request)
    (m : ColumnMapper) (san : ValueSanitizer V)
    (hs : (SortingFromRequest (V := V) r m).2 = none)
    (hp : (PaginationFromRequest (V := V) cfg r).2 = none)
    (hf : (FilterFromRequest r m san).2 = none) :
    ∃ g sf ff pf,
      (SortingFromRequest (V := V) r m).1 = some sf ∧
      (FilterFromRequest r m san).1 = some ff ∧
      (PaginationFromRequest (V := V) cfg r).1 = some pf ∧
      FilterPagingSortingFromRequest cfg r m san = (some g, none) ∧
      ∀ q, g q = some (pf (ff (sf q))) := by
  obtain ⟨sf, hsf⟩ := Option.isSome_iff_exists.mp (sorting_fst_isSome r m)
  obtain ⟨ff, hff⟩ := Option.isSome_iff_exists.mp (filter_fst_isSome r m san)
  obtain ⟨pf, hpf⟩ :=
    Option.isSome_iff_exists.mp (pagination_fst_isSome_of_no_err cfg r hp)
  refine ⟨fun query =>
      (callQO (SortingFromRequest (V := V) r m).1 query).bind fun q1 =>
        (callQO (FilterFromRequest r m san).1 q1).bind fun q2 =>
          callQO (PaginationFromRequest (V := V) cfg r).1 q2,
    sf, ff, pf, hsf, hff, hpf, ?_, ?_⟩
  · simp [FilterPagingSortingFromRequest, hs, hp, hf]
  · intro q
    simp [callQO, hsf, hff, hpf]

/-- Witness for C10: with `sort=-name`, `page[number]=2`, `page[size]=10`
and `filter[color]=red,blue`, all three parsers succeed and the composed
modifier is their sorting-filtering-pagination composition. -/
theorem c10_compose_order_witness :
    (SortingFromRequest (V := String) reqAll exMapper).2 = none ∧
    (PaginationFromRequest (V := String) dcfg reqAll).2 = none ∧
    (FilterFromRequest reqAll exMapper idSanitizer).2 = none ∧
    ∃ g sf ff pf,
      (SortingFromRequest (V := String) reqAll exMapper).1 = some sf ∧
      (FilterFromRequest reqAll exMapper idSanitizer).1 = some ff ∧
      (PaginationFromRequest (V := String) dcfg reqAll).1 = some pf ∧
      FilterPagingSortingFromRequest dcfg reqAll exMapper idSanitizer =
        (some g, none) ∧
      ∀ q, g q = some (pf (ff (sf q))) :=
  ⟨rfl, rfl, rfl,
   c10_compose_order (V := String) dcfg reqAll exMapper idSanitizer rfl rfl rfl⟩

end Bricks
